import Mathlib

set_option maxRecDepth 8192

/-!
Verification development for the pelican PE-probing library.

The Go sources are shallowly embedded: byte sources are `List Nat` (each
element a byte value), Go strings extracted from binary data are raw byte
lists (`GoStr`), machine integers are `Nat` with explicit `% 2^w` where Go's
fixed-width wraparound matters, fallible Go functions return `Except`, and a
Go runtime panic (slice index out of range) is modelled by the distinguished
error `PErr.panic`, which the orchestrator propagates rather than handles.
-/

namespace Pelican

/-- Go strings extracted from binary data: raw byte lists. -/
abbrev GoStr := List Nat

/-- Propositional equality on `Except` results is decidable when it is on
both components. -/
instance {ε α : Type} [DecidableEq ε] [DecidableEq α] :
    DecidableEq (Except ε α) := fun a b =>
  match a, b with
  | .error e, .error f =>
    if h : e = f then .isTrue (by rw [h]) else .isFalse (by simp [h])
  | .ok x, .ok y =>
    if h : x = y then .isTrue (by rw [h]) else .isFalse (by simp [h])
  | .error _, .ok _ => .isFalse (by simp)
  | .ok _, .error _ => .isFalse (by simp)

/-- Errors of the embedded pe package.  `panic` models a Go runtime panic
(slice bounds out of range), which is a crash, not a returned error. -/
inductive PErr where
  | readErr : PErr
  | invalidSignature (sign : List Nat) : PErr
  | unsupportedMachine (m : Nat) : PErr
  | badOptionalMagic (magic : Nat) : PErr
  | stringTableErr : PErr
  | symbolErr : PErr
  | sectionNameErr : PErr
  | panic : PErr
  deriving Repr, DecidableEq

/-- Model of `r.ReadAt(p, off)` with `len(p) = n` over a byte-list source: full read,
or an error when fewer than `n` bytes are available at `off`. -/
def readBytes (src : List Nat) (off n : Nat) : Except PErr (List Nat) :=
  if off + n ≤ src.length then .ok ((src.drop off).take n) else .error .readErr

/-- Little-endian 16-bit value at index `i` (callers establish bounds). -/
def lu16at (b : List Nat) (i : Nat) : Nat :=
  b.getD i 0 + 256 * b.getD (i + 1) 0

/-- Little-endian 32-bit value at index `i` (callers establish bounds). -/
def lu32at (b : List Nat) (i : Nat) : Nat :=
  lu16at b i + 65536 * lu16at b (i + 2)

/-- Little-endian 64-bit value at index `i` (callers establish bounds). -/
def lu64at (b : List Nat) (i : Nat) : Nat :=
  lu32at b i + 4294967296 * lu32at b (i + 4)

/-- Go's `cstring`: the bytes up to the first NUL (the whole slice when no
NUL occurs). -/
def cstring (b : List Nat) : List Nat :=
  b.takeWhile (fun c => c ≠ 0)

/-- Embeds `getString` from file.go: extracts a NUL-terminated string from `sect`
starting at `start`; `(.., false)` when `start` is out of range or no NUL
terminator exists. -/
def getString (sect : List Nat) (start : Nat) : GoStr × Bool :=
  if start ≥ sect.length then ([], false)
  else
    match (sect.drop start).findIdx? (fun c => c = 0) with
    | some e => ((sect.drop start).take e, true)
    | none => ([], false)

/-- A (VirtualAddress, Size) data-directory slot.
Modelled from the spec: the `DataDirectory` struct of the pe package is not
under src/; per §3 it is a (virtual address, size) pair. -/
structure DataDirectory where
  virtualAddress : Nat
  size : Nat
  deriving Repr, DecidableEq

/-- Modelled from the spec: the `OptionalHeader32` struct layout is not under
src/.  Per §4.1 it is the fixed 32-bit optional-header layout: 224 bytes
total, `Magic` (2 bytes) at offset 0, sixteen 8-byte data directories
starting at offset 96.  Only the fields the probed claims use are retained;
the remaining numeric fields are decoded but unused. -/
structure OptionalHeader32 where
  magic : Nat
  dataDirectory : List DataDirectory
  deriving Repr, DecidableEq

/-- Modelled from the spec: the `OptionalHeader64` struct layout is not under
src/.  240 bytes total, `Magic` at offset 0, sixteen 8-byte data directories
starting at offset 112. -/
structure OptionalHeader64 where
  magic : Nat
  dataDirectory : List DataDirectory
  deriving Repr, DecidableEq

/-- The `OptionalHeader interface{}` field of `File`: either a 32-bit or a
64-bit optional header, or absent (`none`, for object files). -/
inductive OptHeader where
  | o32 (h : OptionalHeader32)
  | o64 (h : OptionalHeader64)
  deriving Repr, DecidableEq

/-- Modelled from the spec: the COFF `FileHeader` struct is not under src/;
per §3/§4.1 it is the standard 20-byte COFF file header. -/
structure FileHeader where
  machine : Nat
  numberOfSections : Nat
  timeDateStamp : Nat
  pointerToSymbolTable : Nat
  numberOfSymbols : Nat
  sizeOfOptionalHeader : Nat
  characteristics : Nat
  deriving Repr, DecidableEq

/-- Modelled from the spec: the `Reloc` struct (section.go) is not under
src/: a fixed 10-byte record. -/
structure Reloc where
  virtualAddress : Nat
  symbolTableIndex : Nat
  typ : Nat
  deriving Repr, DecidableEq

/-- Modelled from the spec: the raw `COFFSymbol` record (symbol.go) is not
under src/: a fixed 18-byte record whose first 8 bytes are the short name. -/
structure COFFSymbol where
  name : List Nat
  value : Nat
  sectionNumber : Nat
  typ : Nat
  storageClass : Nat
  numberOfAuxSymbols : Nat
  deriving Repr, DecidableEq

/-- Modelled from the spec: the cooked `Symbol` (auxiliary records removed,
name resolved). -/
structure Symbol where
  name : GoStr
  value : Nat
  sectionNumber : Nat
  typ : Nat
  storageClass : Nat
  deriving Repr, DecidableEq

/-- A PE section: the `SectionHeader` fields plus the reader built in
`NewFile`.  The reader is `io.NewSectionReader(r2, Offset, Size)` where `r2`
is the underlying source, or `zeroReaderAt` exactly when `PointerToRawData`
(= `offset`) is zero, so the zero-fill behaviour is recovered from
`offset = 0`. -/
structure Section where
  name : GoStr
  virtualSize : Nat
  virtualAddress : Nat
  size : Nat
  offset : Nat
  pointerToRelocations : Nat
  pointerToLineNumbers : Nat
  numberOfRelocations : Nat
  numberOfLineNumbers : Nat
  characteristics : Nat
  relocs : List Reloc
  deriving Repr, DecidableEq

/-- Embeds `Section.Data()` (section.go, modelled from the spec: lazy content
accessor): reads `size` bytes through the section reader.  The zero-fill
reader (`offset = 0`) always succeeds with zeros; otherwise the read
succeeds iff the raw range lies inside the source. -/
def Section.Data (src : List Nat) (s : Section) : Except PErr (List Nat) :=
  if s.offset = 0 then .ok (List.replicate s.size 0)
  else if s.size = 0 then .ok []
  else if s.offset + s.size ≤ src.length then
    .ok ((src.drop s.offset).take s.size)
  else .error .readErr

/-- Embeds `Section.ReadAt(p, off)` with `len(p) = n`: the `io.SectionReader`
semantics over the section's reader (zero-fill when `offset = 0`).  Returns
the bytes read and an error flag (EOF / short read). -/
def Section.ReadAt (src : List Nat) (s : Section) (off n : Nat) :
    List Nat × Bool :=
  if s.size ≤ off then ([], true)
  else
    let m := min n (s.size - off)
    if s.offset = 0 then
      (List.replicate m 0, decide (m < n))
    else
      let avail := src.length - (s.offset + off)
      let k := min m avail
      (((src.drop (s.offset + off)).take k), decide (k < n))

/-- Embeds `File` (file.go). -/
structure File where
  fileHeader : FileHeader
  optionalHeader : Option OptHeader
  sections : List Section
  symbols : List Symbol
  coffSymbols : List COFFSymbol
  stringTable : List Nat
  deriving Repr, DecidableEq

/-- Field `f.Machine`, promoted from the embedded FileHeader. -/
def File.machine (f : File) : Nat := f.fileHeader.machine

/-- Embeds `File.Section(name)`: first section with the given name, if any. -/
def File.findSectionByName (f : File) (name : GoStr) : Option Section :=
  f.sections.find? (fun s => s.name = name)

/-- IMAGE_FILE_MACHINE_UNKNOWN -/
def machineUnknown : Nat := 0
/-- IMAGE_FILE_MACHINE_I386 -/
def machineI386 : Nat := 0x14c
/-- IMAGE_FILE_MACHINE_AMD64 -/
def machineAmd64 : Nat := 0x8664

/-- Value of `binary.Size(OptionalHeader32{})`. -/
def sizeofOptionalHeader32 : Nat := 224
/-- Value of `binary.Size(OptionalHeader64{})`. -/
def sizeofOptionalHeader64 : Nat := 240
/-- COFFSymbolSize (symbol.go). -/
def coffSymbolSize : Nat := 18

/-- Modelled from the spec: `StringTable.String(start)` (string.go is not
under src/).  Offsets below 4 (inside the length word) and past the table
are errors; otherwise the NUL-terminated string at `start - 4`. -/
def stringTableString (st : List Nat) (start : Nat) : Except PErr GoStr :=
  if start < 4 then .error .stringTableErr
  else if start - 4 > st.length then .error .stringTableErr
  else .ok (cstring (st.drop (start - 4)))

/-- Modelled from the spec: `readStringTable` (string.go is not under src/).
The COFF string table sits right after the symbol table; its leading 32-bit
length includes itself. -/
def readStringTable (src : List Nat) (fh : FileHeader) :
    Except PErr (List Nat) :=
  if fh.pointerToSymbolTable = 0 then .ok []
  else
    let offset := fh.pointerToSymbolTable + coffSymbolSize * fh.numberOfSymbols
    match readBytes src offset 4 with
    | .error _ => .error .stringTableErr
    | .ok lb =>
      let l := lu32at lb 0
      if l < 4 then .error .stringTableErr
      else
        match readBytes src (offset + 4) (l - 4) with
        | .error _ => .error .stringTableErr
        | .ok buf => .ok buf

/-- Decode one raw 18-byte COFF symbol record. -/
def decodeCOFFSymbol (b : List Nat) : COFFSymbol :=
  { name := b.take 8
    value := lu32at b 8
    sectionNumber := lu16at b 12
    typ := lu16at b 14
    storageClass := b.getD 16 0
    numberOfAuxSymbols := b.getD 17 0 }

/-- Decode `n` consecutive 18-byte COFF symbol records from `b`. -/
def decodeCOFFSymbols (b : List Nat) (n : Nat) : List COFFSymbol :=
  match n with
  | 0 => []
  | m + 1 => decodeCOFFSymbol (b.take 18) :: decodeCOFFSymbols (b.drop 18) m

/-- Modelled from the spec: `readCOFFSymbols` (symbol.go is not under src/).
Reads `NumberOfSymbols` fixed 18-byte records at `PointerToSymbolTable`. -/
def readCOFFSymbols (src : List Nat) (fh : FileHeader) :
    Except PErr (List COFFSymbol) :=
  if fh.pointerToSymbolTable = 0 then .ok []
  else if fh.numberOfSymbols = 0 then .ok []
  else
    match readBytes src fh.pointerToSymbolTable
        (coffSymbolSize * fh.numberOfSymbols) with
    | .error _ => .error .symbolErr
    | .ok b => .ok (decodeCOFFSymbols b fh.numberOfSymbols)

/-- Modelled from the spec: `COFFSymbol.FullName` (symbol.go is not under
src/): a short name whose first four bytes are zero is an offset into the
string table (stored in the last four bytes). -/
def fullSymName (st : List Nat) (sym : COFFSymbol) : Except PErr GoStr :=
  if sym.name.take 4 = [0, 0, 0, 0] then
    stringTableString st (lu32at sym.name 4)
  else .ok (cstring sym.name)

/-- Modelled from the spec: `removeAuxSymbols` (symbol.go is not under src/):
walk the raw records, dropping the declared count of auxiliary records after
each primary symbol; resolve each primary symbol's name. -/
def removeAuxSymbolsFrom (st : List Nat) (aux : Nat) :
    List COFFSymbol → Except PErr (List Symbol)
  | [] => .ok []
  | sym :: rest =>
    if aux > 0 then removeAuxSymbolsFrom st (aux - 1) rest
    else
      match fullSymName st sym with
      | .error e => .error e
      | .ok nm =>
        match removeAuxSymbolsFrom st sym.numberOfAuxSymbols rest with
        | .error e => .error e
        | .ok syms =>
          .ok ({ name := nm, value := sym.value
                 sectionNumber := sym.sectionNumber, typ := sym.typ
                 storageClass := sym.storageClass } :: syms)

/-- Modelled from the spec: `strconv.Atoi` on the digits of a section name
tail (only unsigned decimal forms occur in `/`-named sections). -/
def atoiDec (b : List Nat) : Except PErr Nat :=
  if b.length > 0 ∧ b.all (fun c => 48 ≤ c ∧ c ≤ 57) then
    .ok (b.foldl (fun acc c => acc * 10 + (c - 48)) 0)
  else .error .sectionNameErr

/-- Modelled from the spec: `SectionHeader32.fullName` (section.go is not
under src/): a name beginning with `/` refers to the string table by decimal
offset; otherwise the NUL-trimmed short name. -/
def sectionFullName (st : List Nat) (name : List Nat) : Except PErr GoStr :=
  if name.getD 0 0 = 47 then
    match atoiDec (cstring (name.drop 1)) with
    | .error e => .error e
    | .ok i => stringTableString st i
  else .ok (cstring name)

/-- Decode the 20-byte COFF file header. -/
def decodeFileHeader (b : List Nat) : FileHeader :=
  { machine := lu16at b 0
    numberOfSections := lu16at b 2
    timeDateStamp := lu32at b 4
    pointerToSymbolTable := lu32at b 8
    numberOfSymbols := lu32at b 12
    sizeOfOptionalHeader := lu16at b 16
    characteristics := lu16at b 18 }

/-- Decode sixteen 8-byte data directories starting at `i`. -/
def decodeDataDirs (b : List Nat) (i : Nat) : Nat → List DataDirectory
  | 0 => []
  | n + 1 =>
    { virtualAddress := lu32at b i, size := lu32at b (i + 4) }
      :: decodeDataDirs b (i + 8) n

/-- Embeds `binary.Read` of an `OptionalHeader32` at stream position `pos`. -/
def decodeOH32 (src : List Nat) (pos : Nat) :
    Except PErr OptionalHeader32 :=
  match readBytes src pos sizeofOptionalHeader32 with
  | .error e => .error e
  | .ok b => .ok { magic := lu16at b 0, dataDirectory := decodeDataDirs b 96 16 }

/-- Embeds `binary.Read` of an `OptionalHeader64` at stream position `pos`. -/
def decodeOH64 (src : List Nat) (pos : Nat) :
    Except PErr OptionalHeader64 :=
  match readBytes src pos sizeofOptionalHeader64 with
  | .error e => .error e
  | .ok b => .ok { magic := lu16at b 0, dataDirectory := decodeDataDirs b 112 16 }

/-- The optional-header dispatch of `NewFile` (file.go lines 103–122):
decode at `pos = base + 20`, keyed on `SizeOfOptionalHeader`; a size
matching neither layout yields no optional header. -/
def readOptionalHeader (src : List Nat) (pos : Nat) (sz : Nat) :
    Except PErr (Option OptHeader) :=
  if sz = sizeofOptionalHeader32 then
    match decodeOH32 src pos with
    | .error e => .error e
    | .ok h =>
      if h.magic ≠ 0x10b then .error (.badOptionalMagic h.magic)
      else .ok (some (.o32 h))
  else if sz = sizeofOptionalHeader64 then
    match decodeOH64 src pos with
    | .error e => .error e
    | .ok h =>
      if h.magic ≠ 0x20b then .error (.badOptionalMagic h.magic)
      else .ok (some (.o64 h))
  else .ok none

/-- Modelled from the spec: `readRelocs` (section.go is not under src/):
`NumberOfRelocations` fixed 10-byte records at `PointerToRelocations`. -/
def decodeRelocs (b : List Nat) : Nat → List Reloc
  | 0 => []
  | n + 1 =>
    { virtualAddress := lu32at b 0, symbolTableIndex := lu32at b 4
      typ := lu16at b 8 } :: decodeRelocs (b.drop 10) n

/-- Modelled from the spec: `readRelocs` entry point. -/
def readRelocs (src : List Nat) (ptr count : Nat) :
    Except PErr (List Reloc) :=
  if count = 0 then .ok []
  else
    match readBytes src ptr (10 * count) with
    | .error e => .error e
    | .ok b => .ok (decodeRelocs b count)

/-- Decode `count` 40-byte section headers starting at `pos`, resolving each
name against the string table (file.go lines 125–155; relocations are
attached in a second pass). -/
def decodeSections (src : List Nat) (st : List Nat) (pos : Nat) :
    Nat → Except PErr (List Section)
  | 0 => .ok []
  | n + 1 =>
    match readBytes src pos 40 with
    | .error e => .error e
    | .ok b =>
      match sectionFullName st (b.take 8) with
      | .error e => .error e
      | .ok nm =>
        match decodeSections src st (pos + 40) n with
        | .error e => .error e
        | .ok rest =>
          .ok ({ name := nm
                 virtualSize := lu32at b 8
                 virtualAddress := lu32at b 12
                 size := lu32at b 16
                 offset := lu32at b 20
                 pointerToRelocations := lu32at b 24
                 pointerToLineNumbers := lu32at b 28
                 numberOfRelocations := lu16at b 32
                 numberOfLineNumbers := lu16at b 34
                 characteristics := lu32at b 36
                 relocs := [] } :: rest)

/-- Second pass of `NewFile` (file.go lines 156–162): read each section's
relocations. -/
def attachRelocs (src : List Nat) :
    List Section → Except PErr (List Section)
  | [] => .ok []
  | s :: rest =>
    match readRelocs src s.pointerToRelocations s.numberOfRelocations with
    | .error e => .error e
    | .ok rl =>
      match attachRelocs src rest with
      | .error e => .error e
      | .ok rest2 => .ok ({ s with relocs := rl } :: rest2)

/-- The DOS-stub dispatch of `NewFile` (file.go lines 53–67): a source
beginning with "MZ" must carry the PE signature at the offset stored at
0x3C (`base` is then signature offset + 4); otherwise the source is a bare
COFF object and `base = 0`. -/
def peBase (src : List Nat) : Except PErr Nat :=
  if src.getD 0 0 = 77 ∧ src.getD 1 0 = 90 then
    match readBytes src (lu32at src 0x3c) 4 with
    | .error e => .error e
    | .ok sign =>
      if sign = [80, 69, 0, 0] then .ok (lu32at src 0x3c + 4)
      else .error (.invalidSignature sign)
  else .ok 0

/-- The number of bytes `binary.Read` consumes for the optional header
(exactly the matched layout's size, or nothing). -/
def optionalHeaderConsumed (sz : Nat) : Nat :=
  if sz = sizeofOptionalHeader32 then sizeofOptionalHeader32
  else if sz = sizeofOptionalHeader64 then sizeofOptionalHeader64
  else 0

/-- Embeds `NewFile` (file.go lines 43–165): the full structural parse.  The
96-byte DOS-header read, the optional DOS/PE-signature check, the COFF file
header, the machine-type whitelist, string/symbol tables, the
optional-header dispatch, section headers, and per-section relocations. -/
def NewFile (src : List Nat) : Except PErr File :=
  if src.length < 96 then .error .readErr
  else
    match peBase src with
    | .error e => .error e
    | .ok base =>
      match readBytes src base 20 with
      | .error e => .error e
      | .ok fhb =>
        if (decodeFileHeader fhb).machine ≠ machineUnknown ∧
            (decodeFileHeader fhb).machine ≠ machineAmd64 ∧
            (decodeFileHeader fhb).machine ≠ machineI386 then
          .error (.unsupportedMachine (decodeFileHeader fhb).machine)
        else
          match readStringTable src (decodeFileHeader fhb) with
          | .error e => .error e
          | .ok st =>
            match readCOFFSymbols src (decodeFileHeader fhb) with
            | .error e => .error e
            | .ok coffs =>
              match removeAuxSymbolsFrom st 0 coffs with
              | .error e => .error e
              | .ok syms =>
                match readOptionalHeader src (base + 20)
                    (decodeFileHeader fhb).sizeOfOptionalHeader with
                | .error e => .error e
                | .ok oh =>
                  match decodeSections src st
                      (base + 20 + optionalHeaderConsumed
                        (decodeFileHeader fhb).sizeOfOptionalHeader)
                      (decodeFileHeader fhb).numberOfSections with
                  | .error e => .error e
                  | .ok secs0 =>
                    match attachRelocs src secs0 with
                    | .error e => .error e
                    | .ok secs =>
                      .ok { fileHeader := decodeFileHeader fhb
                            optionalHeader := oh
                            sections := secs
                            symbols := syms
                            coffSymbols := coffs
                            stringTable := st }

/-- Embeds `ImageImportDescriptor` (file.go lines 229–235; only the three fields
the walkers decode are populated by the loop). -/
structure ImageImportDescriptor where
  originalFirstThunk : Nat
  name : Nat
  firstThunk : Nat
  deriving Repr, DecidableEq

/-- The `dd` extraction shared by `ImportedSymbols` and `ImportedLibraries`
(file.go lines 242–248 and 336–342): the zero array when no optional header
is present. -/
def dataDirs (f : File) : List DataDirectory :=
  match f.optionalHeader with
  | some (.o32 h) => h.dataDirectory
  | some (.o64 h) => h.dataDirectory
  | none => List.replicate 16 { virtualAddress := 0, size := 0 }

/-- Entry `dd[1]`, the import data directory. -/
def importTableAddress (f : File) : DataDirectory :=
  (dataDirs f).getD 1 { virtualAddress := 0, size := 0 }

/-- The section search shared by both walkers (file.go lines 254–265 and
346–357): the first section whose virtual range fully contains the import
directory's RVA range. -/
def findImportSection (f : File) (ita : DataDirectory) : Option Section :=
  f.sections.find? (fun s =>
    s.virtualAddress ≤ ita.virtualAddress ∧
    ita.virtualAddress + ita.size ≤ s.virtualAddress + s.virtualSize)

/-- Little-endian 32-bit value from four explicit bytes. -/
def lu32of (a b c d : Nat) : Nat :=
  a + 256 * b + 65536 * c + 16777216 * d

/-- The import-descriptor loop (file.go lines 278–290 and 370–382): decode
20-byte records (`OriginalFirstThunk` from bytes 0–3, `Name` from 12–15,
`FirstThunk` from 16–19) until a zero `originalFirstThunk` or an exactly
exhausted slice; Go's `idBlock[12:16]` / `idBlock[16:20]` / `idBlock[20:]`
panic when `0 < len(idBlock) < 20`, matched here by the fallback case. -/
def parseImportDescriptors : List Nat → Except PErr (List ImageImportDescriptor)
  | b0 :: b1 :: b2 :: b3 :: _ :: _ :: _ :: _ :: _ :: _ :: _ :: _ ::
      b12 :: b13 :: b14 :: b15 :: b16 :: b17 :: b18 :: b19 :: rest =>
    let dt : ImageImportDescriptor :=
      { originalFirstThunk := lu32of b0 b1 b2 b3
        name := lu32of b12 b13 b14 b15
        firstThunk := lu32of b16 b17 b18 b19 }
    if dt.originalFirstThunk = 0 then .ok []
    else
      match parseImportDescriptors rest with
      | .error e => .error e
      | .ok ds => .ok (dt :: ds)
  | [] => .ok []
  | _ => .error .panic

/-- The 32-bit arm of the per-DLL thunk loop of `ImportedSymbols` (file.go
lines 312–325): 4-byte entries, a zero entry terminating; a bit-31 entry is
an ordinal and contributes nothing; otherwise the value is an RVA whose
name (2 bytes past the hint, in uint32 arithmetic relative to the import
directory) is resolved in the section slice.  Go panics when the remaining
block is shorter than one entry (the fallback case). -/
def walkThunks32 (sectionData : List Nat) (dVA : Nat) (dll : GoStr) :
    List Nat → Except PErr (List GoStr)
  | b0 :: b1 :: b2 :: b3 :: rest =>
    let va := lu32of b0 b1 b2 b3
    if va = 0 then .ok []
    else if va.testBit 31 then walkThunks32 sectionData dVA dll rest
    else
      let fn := (getString sectionData
        ((va + 4294967296 - dVA + 2) % 4294967296)).1
      match walkThunks32 sectionData dVA dll rest with
      | .error e => .error e
      | .ok r => .ok ((fn ++ [58] ++ dll) :: r)
  | [] => .ok []
  | _ => .error .panic

/-- The 64-bit arm of the thunk loop (file.go lines 300–311): 8-byte
entries, bit 63 marking ordinals, and `uint32(va)` truncation before the
name offset arithmetic. -/
def walkThunks64 (sectionData : List Nat) (dVA : Nat) (dll : GoStr) :
    List Nat → Except PErr (List GoStr)
  | b0 :: b1 :: b2 :: b3 :: b4 :: b5 :: b6 :: b7 :: rest =>
    let va := lu32of b0 b1 b2 b3 + 4294967296 * lu32of b4 b5 b6 b7
    if va = 0 then .ok []
    else if va.testBit 63 then walkThunks64 sectionData dVA dll rest
    else
      let fn := (getString sectionData
        ((va % 4294967296 + 4294967296 - dVA + 2) % 4294967296)).1
      match walkThunks64 sectionData dVA dll rest with
      | .error e => .error e
      | .ok r => .ok ((fn ++ [58] ++ dll) :: r)
  | [] => .ok []
  | _ => .error .panic

/-- The thunk loop (file.go lines 299–326), dispatching on `pe64` as the
loop body does. -/
def walkThunks (sectionData : List Nat) (dVA : Nat) (dll : GoStr)
    (pe64 : Bool) (block : List Nat) : Except PErr (List GoStr) :=
  if pe64 then walkThunks64 sectionData dVA dll block
  else walkThunks32 sectionData dVA dll block

/-- The DLL-name resolution both walkers use (file.go lines 294 and 386):
`getString(sectionData, int(dt.Name - VA))` in uint32 arithmetic, the
failure flag discarded. -/
def dllName (sectionData : List Nat) (dVA : Nat)
    (dt : ImageImportDescriptor) : GoStr :=
  (getString sectionData ((dt.name + 4294967296 - dVA) % 4294967296)).1

/-- The per-descriptor body of `ImportedSymbols` (file.go lines 293–327):
resolve the DLL name, slice to `OriginalFirstThunk` (a uint32-wrapping
offset; Go panics when it exceeds the slice), walk the thunks. -/
def goSymbols (sectionData : List Nat) (dVA : Nat) (pe64 : Bool) :
    List ImageImportDescriptor → Except PErr (List GoStr)
  | [] => .ok []
  | dt :: rest =>
    let dll := dllName sectionData dVA dt
    let t := (dt.originalFirstThunk + 4294967296 - dVA) % 4294967296
    if sectionData.length < t then .error .panic
    else
      match walkThunks sectionData dVA dll pe64 (sectionData.drop t) with
      | .error e => .error e
      | .ok syms =>
        match goSymbols sectionData dVA pe64 rest with
        | .error e => .error e
        | .ok more => .ok (syms ++ more)

/-- The common prefix of `ImportedSymbols` and `ImportedLibraries` (the two
functions duplicate this code verbatim in file.go): locate the containing
section, load its data, slice to the directory RVA (Go panics when the
offset exceeds the data), and decode the descriptor array.  Returns `none`
when no containing section exists. -/
def importPrep (src : List Nat) (f : File) :
    Except PErr (Option (List Nat × Nat × List ImageImportDescriptor)) :=
  let ita := importTableAddress f
  match findImportSection f ita with
  | none => .ok none
  | some ds =>
    match ds.Data src with
    | .error e => .error e
    | .ok data0 =>
      let k := ita.virtualAddress - ds.virtualAddress
      if data0.length < k then .error .panic
      else
        let sectionData := data0.drop k
        match parseImportDescriptors sectionData with
        | .error e => .error e
        | .ok descs => .ok (some (sectionData, ita.virtualAddress, descs))

/-- Embeds `ImportedSymbols` (file.go lines 241–330). -/
def ImportedSymbols (src : List Nat) (f : File) :
    Except PErr (List GoStr) :=
  match importPrep src f with
  | .error e => .error e
  | .ok none => .ok []
  | .ok (some (sectionData, dVA, descs)) =>
    goSymbols sectionData dVA (f.machine = machineAmd64) descs

/-- Embeds `ImportedLibraries` (file.go lines 335–391). -/
def ImportedLibraries (src : List Nat) (f : File) :
    Except PErr (List GoStr) :=
  match importPrep src f with
  | .error e => .error e
  | .ok none => .ok []
  | .ok (some (sectionData, dVA, descs)) =>
    .ok (descs.map (dllName sectionData dVA))

/-- Modelled from the spec: `AssemblyInfo` (its defining file is not under
src/); §6 gives `{ requestedExecutionLevel: string }`. -/
structure AssemblyInfo where
  requestedExecutionLevel : GoStr
  deriving Repr, DecidableEq

/-- Modelled from the spec: `DependentAssembly` (its defining file is not
under src/); §6 gives the four string attributes. -/
structure DependentAssembly where
  name : GoStr
  language : GoStr
  processorArchitecture : GoStr
  publicKeyToken : GoStr
  deriving Repr, DecidableEq

/-- Modelled from the spec: the full `PeInfo` result type (its defining file
is not under src/; probe.go fills `Arch`, `Imports`, `VersionProperties`,
and resource parsing fills the rest).  `versionProperties` is the flat
string map, kept as an association list. -/
structure PeInfo where
  arch : String
  imports : List GoStr
  versionProperties : List (GoStr × GoStr)
  assemblyInfo : Option AssemblyInfo
  dependentAssemblies : List DependentAssembly
  deriving Repr, DecidableEq

/-- What a successful `parseResources` contributes to the `PeInfo`.
Modelled from the spec: parseResources is not under src/; per §7 a
recoverable failure leaves the corresponding fields empty/absent (never
half-filled), so its outcome is `Except` of these contributions. -/
structure ResOut where
  versionProperties : List (GoStr × GoStr)
  assemblyInfo : Option AssemblyInfo
  dependentAssemblies : List DependentAssembly
  deriving Repr, DecidableEq

/-- Embeds `ProbeParams` (probe.go lines 117–122).  The diagnostic sink is
modelled by returning the emitted warning messages alongside the result. -/
structure ProbeParams where
  strict : Bool
  deriving Repr, DecidableEq

/-- Errors returned by `Probe`: a structural-parse error passed through
(`errors.WithStack`), or a subsystem error wrapped with a context message
(`errors.WithMessage`).  Resource-parsing errors are abstract strings since
parseResources is not under src/. -/
inductive ProbeErr where
  | newFile (e : PErr)
  | withMessage (msg : String) (e : PErr ⊕ String)
  deriving Repr, DecidableEq

/-- The observable outcome of one `Probe` call: a `PeInfo` plus the warning
messages emitted on the diagnostic sink, a returned error, or a crash (a Go
panic propagating out of a subsystem). -/
inductive ProbeOutcome where
  | ok (info : PeInfo) (warnings : List String)
  | err (e : ProbeErr)
  | crash
  deriving Repr, DecidableEq

/-- Message of `consumer.Warnf("Could not parse imported libraries: %+v", err)`. -/
def warnImports : String := "Could not parse imported libraries"
/-- Message of `consumer.Warnf("Could not parse resources: %+v", err)`. -/
def warnResources : String := "Could not parse resources"

/-- Name bytes of the section `".rsrc"`. -/
def rsrcName : GoStr := [46, 114, 115, 114, 99]

/-- The post-structural-parse body of `Probe` (probe.go lines 138–169):
set the architecture from the machine type, run `ImportedLibraries` (fatal
wrapped with "while parsing imported libraries" under strict, warning and
empty imports otherwise), then `parseResources` on the `.rsrc` section when
present (fatal wrapped with "while parsing resources" under strict, warning
and unset fields otherwise).  A Go panic in a subsystem propagates as a
crash.  `parseRes` abstracts the resource subsystem, which is not under
src/. -/
def ProbeWithFile (parseRes : Section → Except String ResOut)
    (src : List Nat) (pf : File) (params : ProbeParams) : ProbeOutcome :=
  let arch : String :=
    if pf.machine = machineI386 then "386"
    else if pf.machine = machineAmd64 then "amd64"
    else ""
  let step : (List GoStr × List String) → ProbeOutcome :=
    fun (imports, warnings) =>
      let info : PeInfo :=
        { arch := arch, imports := imports, versionProperties := []
          assemblyInfo := none, dependentAssemblies := [] }
      match pf.findSectionByName rsrcName with
      | none => .ok info warnings
      | some sect =>
        match parseRes sect with
        | .ok r =>
          .ok { info with
                versionProperties := r.versionProperties
                assemblyInfo := r.assemblyInfo
                dependentAssemblies := r.dependentAssemblies } warnings
        | .error e =>
          if params.strict then
            .err (.withMessage "while parsing resources" (.inr e))
          else .ok info (warnings ++ [warnResources])
  match ImportedLibraries src pf with
  | .error .panic => .crash
  | .error e =>
    if params.strict then
      .err (.withMessage "while parsing imported libraries" (.inl e))
    else step ([], [warnImports])
  | .ok imports => step (imports, [])

/-- Embeds `Probe` (probe.go lines 125–169): `Stat` (always succeeds for an
in-memory byte source), `pe.NewFile`, then the subsystem sequence. -/
def Probe (parseRes : Section → Except String ResOut)
    (src : List Nat) (params : ProbeParams) : ProbeOutcome :=
  match NewFile src with
  | .error e => .err (.newFile e)
  | .ok pf => ProbeWithFile parseRes src pf params

/-- A sufficient bounds condition under which the import walkers cannot hit
a Go slice panic: the directory offset fits in the section data, the
descriptor region is a whole number of 20-byte records, and each
descriptor's thunk offset fits and leaves a whole number of thunk
entries. -/
def importsInBounds (src : List Nat) (f : File) : Bool :=
  let ita := importTableAddress f
  match findImportSection f ita with
  | none => true
  | some ds =>
    match ds.Data src with
    | .error _ => true
    | .ok data0 =>
      let k := ita.virtualAddress - ds.virtualAddress
      decide (k ≤ data0.length) &&
      (let sectionData := data0.drop k
       decide (sectionData.length % 20 = 0) &&
       (match parseImportDescriptors sectionData with
        | .error _ => false
        | .ok descs =>
          descs.all fun dt =>
            let t := (dt.originalFirstThunk + 4294967296 - ita.virtualAddress)
              % 4294967296
            decide (t ≤ sectionData.length) &&
            decide ((sectionData.length - t) %
              (if f.machine = machineAmd64 then 8 else 4) = 0)))

/-- The abstract resource subsystem that always fails, for witnesses. -/
def failRes : Section → Except String ResOut :=
  fun _ => .error "resource decode failure"

/-- A source of 96 zero bytes: no DOS signature, parsed as a bare COFF object with
machine IMAGE_FILE_MACHINE_UNKNOWN, no symbols, no sections. -/
def zeroSrc : List Nat := List.replicate 96 0

/-- A source starting with the DOS signature whose PE-signature pointer
(zero) leads to bytes that are not the PE signature. -/
def mzBadSrc : List Nat := [77, 90] ++ List.replicate 94 0

/-- Sixteen data directories with the given entry in slot 1 (imports). -/
def dd16 (one : DataDirectory) : List DataDirectory :=
  { virtualAddress := 0, size := 0 } :: one
    :: List.replicate 14 { virtualAddress := 0, size := 0 }

/-- A bare COFF image (machine I386, PE32 optional header) whose single
`.idata`-style section declares raw data at file offset 0x4000, past the
end of the 284-byte source, so `Section.Data` fails and the import walk
returns a (non-panic) error. -/
def impFailSrc : List Nat :=
  [0x4c, 0x01, 0x01, 0x00] ++ List.replicate 12 0 ++ [0xE0, 0x00, 0, 0]
  ++ [0x0b, 0x01] ++ List.replicate 102 0
  ++ [0x00, 0x10, 0, 0, 0x08, 0, 0, 0]
  ++ List.replicate 112 0
  ++ [46, 105, 100, 97, 116, 97, 0, 0]
  ++ [0, 0x20, 0, 0]
  ++ [0, 0x10, 0, 0]
  ++ [0, 0x01, 0, 0]
  ++ [0, 0x40, 0, 0]
  ++ List.replicate 16 0

/-- The `File` value `NewFile` produces for `impFailSrc`. -/
def impFailFile : File :=
  ⟨⟨0x14c, 1, 0, 0, 0, 224, 0⟩,
   some (.o32 ⟨0x10b, dd16 ⟨0x1000, 8⟩⟩),
   [⟨[46, 105, 100, 97, 116, 97], 0x2000, 0x1000, 0x100, 0x4000,
     0, 0, 0, 0, 0, []⟩],
   [], [], []⟩

/-- A bare COFF image (machine I386, no optional header) with a single
section named `.rsrc`, so the resource subsystem runs. -/
def rsrcSrc : List Nat :=
  [0x4c, 0x01, 0x01, 0x00] ++ List.replicate 12 0 ++ [0, 0, 0, 0]
  ++ [46, 114, 115, 114, 99, 0, 0, 0]
  ++ [0, 0x10, 0, 0]
  ++ [0, 0x10, 0, 0]
  ++ [0, 0, 0, 0]
  ++ [0, 0, 0, 0]
  ++ List.replicate 16 0
  ++ List.replicate 36 0

/-- The `File` value `NewFile` produces for `rsrcSrc`. -/
def rsrcFile : File :=
  ⟨⟨0x14c, 1, 0, 0, 0, 0, 0⟩, none,
   [⟨[46, 114, 115, 114, 99], 0x1000, 0x1000, 0, 0, 0, 0, 0, 0, 0, []⟩],
   [], [], []⟩

/-- An 11-byte source whose bytes 1..10 form a 10-byte import slice: the
descriptor loop reads `idBlock[12:16]` past the slice and panics in Go. -/
def panicSrc : List Nat := [99, 1, 0, 0, 0, 0, 0, 0, 0, 0, 0]

/-- A `File` whose import directory (RVA 0x1000, size 4) lies in a section
with 10 bytes of raw data at file offset 1: decoding its first 20-byte
descriptor record overruns the slice. -/
def panicFile : File :=
  ⟨⟨0x14c, 1, 0, 0, 0, 224, 0⟩,
   some (.o32 ⟨0x10b, dd16 ⟨0x1000, 4⟩⟩),
   [⟨[46, 105], 0x1000, 0x1000, 10, 1, 0, 0, 0, 0, 0, []⟩],
   [], [], []⟩

/-- A well-formed 100-byte import slice: one descriptor (thunk array at RVA
0x1040, DLL name "FOO.DLL" at RVA 0x1030), a zero terminator record, a
thunk array holding a name entry (RVA 0x1050, hint+"bar"), an ordinal entry
(top bit set) and a zero terminator. -/
def impSectData : List Nat :=
  [64, 16, 0, 0, 0, 0, 0, 0, 0, 0, 0, 0, 48, 16, 0, 0, 0, 0, 0, 0]
  ++ List.replicate 28 0
  ++ [70, 79, 79, 46, 68, 76, 76, 0] ++ List.replicate 8 0
  ++ [80, 16, 0, 0, 1, 0, 0, 128, 0, 0, 0, 0] ++ List.replicate 4 0
  ++ [0, 0] ++ [98, 97, 114, 0] ++ List.replicate 14 0

/-- A source holding `impSectData` at file offset 8. -/
def impSrc : List Nat := List.replicate 8 0 ++ impSectData

/-- A `File` whose import directory (RVA 0x1000, size 40) lies in a section
whose raw data is `impSectData`. -/
def impFile : File :=
  ⟨⟨0x14c, 1, 0, 0, 0, 224, 0⟩,
   some (.o32 ⟨0x10b, dd16 ⟨0x1000, 40⟩⟩),
   [⟨[46, 105], 0x1000, 0x1000, 100, 8, 0, 0, 0, 0, 0, []⟩],
   [], [], []⟩

/-- A `.bss`-style section: raw-data pointer zero, declared size 5. -/
def bssSection : Section :=
  ⟨[46, 98, 115, 115], 5, 0x3000, 5, 0, 0, 0, 0, 0, 0, []⟩

/-- C5: for every parsed image, every thunk entry whose top bit is set (an
ordinal import) is recognized and skipped without error by the thunk walk
of `ImportedSymbols`, and no entry derived from it appears in the returned
function:library list: the walk of a block starting with an ordinal entry
equals the walk of the block without that entry. -/
theorem walkThunks_ordinal_skipped (sectionData : List Nat) (dVA : Nat)
    (dll : GoStr) (pe64 : Bool) (entry rest : List Nat)
    (hlen : entry.length = if pe64 then 8 else 4)
    (hbit : Nat.testBit
      (lu32of (entry.getD 0 0) (entry.getD 1 0) (entry.getD 2 0)
          (entry.getD 3 0) +
        (if pe64 then
          4294967296 * lu32of (entry.getD 4 0) (entry.getD 5 0)
            (entry.getD 6 0) (entry.getD 7 0)
         else 0))
      (if pe64 then 63 else 31) = true) :
    walkThunks sectionData dVA dll pe64 (entry ++ rest) =
      walkThunks sectionData dVA dll pe64 rest := by
  cases pe64
  · have hlen4 : entry.length = 4 := by simpa using hlen
    rcases entry with _ | ⟨a, entry⟩
    · simp at hlen4
    rcases entry with _ | ⟨b, entry⟩
    · simp at hlen4
    rcases entry with _ | ⟨c, entry⟩
    · simp at hlen4
    rcases entry with _ | ⟨d, entry⟩
    · simp at hlen4
    have hnil : entry = [] := by simpa using hlen4
    subst hnil
    have hbit31 : Nat.testBit (lu32of a b c d) 31 = true := by simpa using hbit
    have hva : lu32of a b c d ≠ 0 := by
      intro h0
      rw [h0] at hbit31
      simp [Nat.zero_testBit] at hbit31
    rw [walkThunks, walkThunks, if_neg (by simp), if_neg (by simp)]
    simp only [List.cons_append, List.nil_append]
    rw [walkThunks32]
    simp only [if_neg hva, if_pos hbit31]
  · have hlen8 : entry.length = 8 := by simpa using hlen
    rcases entry with _ | ⟨a, entry⟩
    · simp at hlen8
    rcases entry with _ | ⟨b, entry⟩
    · simp at hlen8
    rcases entry with _ | ⟨c, entry⟩
    · simp at hlen8
    rcases entry with _ | ⟨d, entry⟩
    · simp at hlen8
    rcases entry with _ | ⟨e, entry⟩
    · simp at hlen8
    rcases entry with _ | ⟨f, entry⟩
    · simp at hlen8
    rcases entry with _ | ⟨g, entry⟩
    · simp at hlen8
    rcases entry with _ | ⟨i, entry⟩
    · simp at hlen8
    have hnil : entry = [] := by simpa using hlen8
    subst hnil
    have hbit63 :
        Nat.testBit (lu32of a b c d + 4294967296 * lu32of e f g i) 63 = true := by
      simpa using hbit
    have hva : lu32of a b c d + 4294967296 * lu32of e f g i ≠ 0 := by
      intro h0
      rw [h0] at hbit63
      simp [Nat.zero_testBit] at hbit63
    rw [walkThunks, walkThunks, if_pos rfl, if_pos rfl]
    simp only [List.cons_append, List.nil_append]
    rw [walkThunks64]
    simp only [if_neg hva, if_pos hbit63]

/-- Witness for C5: a concrete 32-bit ordinal entry (value 0x80000001) is
skipped and contributes nothing. -/
theorem walkThunks_ordinal_skipped_witness :
    (([1, 0, 0, 128] : List Nat).length = if false then 8 else 4) ∧
    walkThunks [] 0 [88] false ([1, 0, 0, 128] ++ [0, 0, 0, 0]) =
      walkThunks [] 0 [88] false [0, 0, 0, 0] :=
  ⟨by decide,
   walkThunks_ordinal_skipped [] 0 [88] false [1, 0, 0, 128] [0, 0, 0, 0]
     (by decide) (by decide)⟩

/-- C6: for every section whose raw-data file pointer is zero, reading its
content at any in-range offset yields only zero bytes for the requested
length, the whole content is size-many zero bytes, and no read consults the
underlying byte source (the result is identical for every source). -/
theorem bss_section_zero_reads (src : List Nat) (s : Section) (off n : Nat)
    (hz : s.offset = 0) (hoff : off < s.size) (hn : off + n ≤ s.size) :
    Section.ReadAt src s off n = (List.replicate n 0, false) ∧
    Section.Data src s = .ok (List.replicate s.size 0) ∧
    ∀ src2 : List Nat,
      Section.ReadAt src2 s off n = Section.ReadAt src s off n := by
  have hra : ∀ src3 : List Nat,
      Section.ReadAt src3 s off n = (List.replicate n 0, false) := by
    intro src3
    unfold Section.ReadAt
    rw [if_neg (by omega)]
    simp only [hz, if_pos rfl]
    have hm : min n (s.size - off) = n := by omega
    rw [hm]
    simp
  refine ⟨hra src, ?_, fun src2 => (hra src2).trans (hra src).symm⟩
  unfold Section.Data
  rw [if_pos hz]

/-- Witness for C6: a concrete `.bss`-style section of size 5 read at
offset 1 for 3 bytes yields three zero bytes without error. -/
theorem bss_section_zero_reads_witness :
    Section.ReadAt [9, 9, 9] bssSection 1 3 = (List.replicate 3 0, false) ∧
    Section.Data [9, 9, 9] bssSection = .ok (List.replicate 5 0) :=
  ⟨(bss_section_zero_reads [9, 9, 9] bssSection 1 3 rfl (by decide)
      (by decide)).1,
   (bss_section_zero_reads [9, 9, 9] bssSection 1 3 rfl (by decide)
      (by decide)).2.1⟩

/-- C8: for every parsed image in which no section's virtual-address range
fully contains the import data directory's RVA range, `ImportedLibraries`
and `ImportedSymbols` return an empty result and no error. -/
theorem no_import_section_empty (src : List Nat) (f : File)
    (h : ∀ s ∈ f.sections,
      ¬(s.virtualAddress ≤ (importTableAddress f).virtualAddress ∧
        (importTableAddress f).virtualAddress + (importTableAddress f).size ≤
          s.virtualAddress + s.virtualSize)) :
    ImportedLibraries src f = .ok [] ∧ ImportedSymbols src f = .ok [] := by
  have hf : findImportSection f (importTableAddress f) = none := by
    unfold findImportSection
    rw [List.find?_eq_none]
    intro s hs
    simpa using h s hs
  constructor
  · unfold ImportedLibraries importPrep
    simp only [hf]
  · unfold ImportedSymbols importPrep
    simp only [hf]

/-- Witness for C8: the parsed `.rsrc`-only image (no optional header, so a
zero import directory, and one section at RVA 0x1000) has no containing
section and yields empty import lists. -/
theorem no_import_section_empty_witness :
    ImportedLibraries rsrcSrc rsrcFile = .ok [] ∧
    ImportedSymbols rsrcSrc rsrcFile = .ok [] :=
  no_import_section_empty rsrcSrc rsrcFile (by decide)

/-- C9: `Probe` is deterministic: two probes of the same unchanged byte
source (the model passes the source immutably by value, so no call can
mutate it) yield field-for-field identical `PeInfo` values and identical
diagnostics. -/
theorem probe_deterministic (parseRes : Section → Except String ResOut)
    (src : List Nat) (params : ProbeParams)
    (info1 info2 : PeInfo) (ws1 ws2 : List String)
    (h1 : Probe parseRes src params = .ok info1 ws1)
    (h2 : Probe parseRes src params = .ok info2 ws2) :
    info1.arch = info2.arch ∧ info1.imports = info2.imports ∧
    info1.versionProperties = info2.versionProperties ∧
    info1.assemblyInfo = info2.assemblyInfo ∧
    info1.dependentAssemblies = info2.dependentAssemblies ∧ ws1 = ws2 := by
  rw [h1] at h2
  injection h2 with ha hb
  subst ha
  subst hb
  exact ⟨rfl, rfl, rfl, rfl, rfl, rfl⟩

/-- Witness for C9: two probes of the zero source agree field for field. -/
theorem probe_deterministic_witness :
    (⟨"", [], [], none, []⟩ : PeInfo).arch =
      (⟨"", [], [], none, []⟩ : PeInfo).arch ∧
    (⟨"", [], [], none, []⟩ : PeInfo).imports =
      (⟨"", [], [], none, []⟩ : PeInfo).imports ∧
    (⟨"", [], [], none, []⟩ : PeInfo).versionProperties =
      (⟨"", [], [], none, []⟩ : PeInfo).versionProperties ∧
    (⟨"", [], [], none, []⟩ : PeInfo).assemblyInfo =
      (⟨"", [], [], none, []⟩ : PeInfo).assemblyInfo ∧
    (⟨"", [], [], none, []⟩ : PeInfo).dependentAssemblies =
      (⟨"", [], [], none, []⟩ : PeInfo).dependentAssemblies ∧
    ([] : List String) = [] :=
  probe_deterministic failRes zeroSrc ⟨false⟩ _ _ _ _ (by decide) (by decide)

theorem walkThunks32_mem (sd : List Nat) (dVA : Nat) (dll : GoStr) :
    ∀ (n : Nat) (block : List Nat), block.length ≤ n →
      ∀ l, walkThunks32 sd dVA dll block = .ok l →
      ∀ s ∈ l, ∃ fn, s = fn ++ [58] ++ dll := by
  intro n
  induction n with
  | zero =>
    intro block hb l hw s hs
    have hnil : block = [] := List.length_eq_zero.mp (Nat.le_zero.mp hb)
    subst hnil
    rw [walkThunks32] at hw
    cases hw
    simp at hs
  | succ n ih =>
    intro block hb l hw s hs
    rcases block with _ | ⟨a, block⟩
    · rw [walkThunks32] at hw
      cases hw
      simp at hs
    rcases block with _ | ⟨b, block⟩
    · exact Except.noConfusion (show Except.error PErr.panic = Except.ok l from hw)
    rcases block with _ | ⟨c, block⟩
    · exact Except.noConfusion (show Except.error PErr.panic = Except.ok l from hw)
    rcases block with _ | ⟨d, rest⟩
    · exact Except.noConfusion (show Except.error PErr.panic = Except.ok l from hw)
    have hrl : rest.length ≤ n := by
      simp at hb
      omega
    simp only [walkThunks32] at hw
    split at hw
    · cases hw
      simp at hs
    · split at hw
      · exact ih rest hrl l hw s hs
      · cases hrec : walkThunks32 sd dVA dll rest with
        | error e =>
          rw [hrec] at hw
          cases hw
        | ok r =>
          rw [hrec] at hw
          cases hw
          rcases List.mem_cons.mp hs with h1 | h1
          · exact ⟨_, h1⟩
          · exact ih rest hrl r hrec s h1

theorem walkThunks64_mem (sd : List Nat) (dVA : Nat) (dll : GoStr) :
    ∀ (n : Nat) (block : List Nat), block.length ≤ n →
      ∀ l, walkThunks64 sd dVA dll block = .ok l →
      ∀ s ∈ l, ∃ fn, s = fn ++ [58] ++ dll := by
  intro n
  induction n with
  | zero =>
    intro block hb l hw s hs
    have hnil : block = [] := List.length_eq_zero.mp (Nat.le_zero.mp hb)
    subst hnil
    rw [walkThunks64] at hw
    cases hw
    simp at hs
  | succ n ih =>
    intro block hb l hw s hs
    rcases block with _ | ⟨a, block⟩
    · rw [walkThunks64] at hw
      cases hw
      simp at hs
    rcases block with _ | ⟨b, block⟩
    · exact Except.noConfusion (show Except.error PErr.panic = Except.ok l from hw)
    rcases block with _ | ⟨c, block⟩
    · exact Except.noConfusion (show Except.error PErr.panic = Except.ok l from hw)
    rcases block with _ | ⟨d, block⟩
    · exact Except.noConfusion (show Except.error PErr.panic = Except.ok l from hw)
    rcases block with _ | ⟨e, block⟩
    · exact Except.noConfusion (show Except.error PErr.panic = Except.ok l from hw)
    rcases block with _ | ⟨f, block⟩
    · exact Except.noConfusion (show Except.error PErr.panic = Except.ok l from hw)
    rcases block with _ | ⟨g, block⟩
    · exact Except.noConfusion (show Except.error PErr.panic = Except.ok l from hw)
    rcases block with _ | ⟨i, rest⟩
    · exact Except.noConfusion (show Except.error PErr.panic = Except.ok l from hw)
    have hrl : rest.length ≤ n := by
      simp at hb
      omega
    simp only [walkThunks64] at hw
    split at hw
    · cases hw
      simp at hs
    · split at hw
      · exact ih rest hrl l hw s hs
      · cases hrec : walkThunks64 sd dVA dll rest with
        | error e =>
          rw [hrec] at hw
          cases hw
        | ok r =>
          rw [hrec] at hw
          cases hw
          rcases List.mem_cons.mp hs with h1 | h1
          · exact ⟨_, h1⟩
          · exact ih rest hrl r hrec s h1

theorem walkThunks_mem (sd : List Nat) (dVA : Nat) (dll : GoStr)
    (pe64 : Bool) (block : List Nat) (l : List GoStr)
    (h : walkThunks sd dVA dll pe64 block = .ok l) :
    ∀ s ∈ l, ∃ fn, s = fn ++ [58] ++ dll := by
  unfold walkThunks at h
  cases pe64
  · rw [if_neg (by simp)] at h
    exact walkThunks32_mem sd dVA dll block.length block le_rfl l h
  · rw [if_pos rfl] at h
    exact walkThunks64_mem sd dVA dll block.length block le_rfl l h

theorem goSymbols_mem (sd : List Nat) (dVA : Nat) (pe64 : Bool) :
    ∀ (descs : List ImageImportDescriptor) (syms : List GoStr),
      goSymbols sd dVA pe64 descs = .ok syms →
      ∀ s ∈ syms, ∃ dt ∈ descs, ∃ fn, s = fn ++ [58] ++ dllName sd dVA dt := by
  intro descs
  induction descs with
  | nil =>
    intro syms h s hs
    rw [goSymbols] at h
    cases h
    simp at hs
  | cons dt rest ih =>
    intro syms h s hs
    simp only [goSymbols] at h
    split at h
    · cases h
    · cases hw : walkThunks sd dVA (dllName sd dVA dt) pe64
          (sd.drop ((dt.originalFirstThunk + 4294967296 - dVA) % 4294967296)) with
      | error e =>
        rw [hw] at h
        cases h
      | ok wl =>
        rw [hw] at h
        cases hg : goSymbols sd dVA pe64 rest with
        | error e =>
          rw [hg] at h
          cases h
        | ok more =>
          rw [hg] at h
          cases h
          rcases List.mem_append.mp hs with h1 | h1
          · obtain ⟨fn, hfn⟩ := walkThunks_mem sd dVA _ pe64 _ wl hw s h1
            exact ⟨dt, List.mem_cons_self dt rest, fn, hfn⟩
          · obtain ⟨dt2, hdt2, fn, hfn⟩ := ih more hg s h1
            exact ⟨dt2, List.mem_cons_of_mem _ hdt2, fn, hfn⟩

/-- C10: for every parsed image on which both calls succeed, every string
returned by `ImportedSymbols` has the form function ++ ":" ++ library where
the library part is the DLL name the import descriptor resolves to, and
that library is in the list `ImportedLibraries` returns (both functions
walk the identical descriptor array). -/
theorem imported_symbols_form (src : List Nat) (f : File)
    (syms libs : List GoStr)
    (hs : ImportedSymbols src f = .ok syms)
    (hl : ImportedLibraries src f = .ok libs) :
    ∀ s ∈ syms, ∃ fn dll, s = fn ++ [58] ++ dll ∧ dll ∈ libs := by
  unfold ImportedSymbols at hs
  unfold ImportedLibraries at hl
  cases hp : importPrep src f with
  | error e =>
    rw [hp] at hs
    cases hs
  | ok o =>
    rw [hp] at hs hl
    cases o with
    | none =>
      cases hs
      intro s hsm
      simp at hsm
    | some trip =>
      obtain ⟨sd, dVA, descs⟩ := trip
      cases hl
      intro s hsm
      obtain ⟨dt, hdt, fn, hfn⟩ := goSymbols_mem sd dVA _ descs syms hs s hsm
      exact ⟨fn, dllName sd dVA dt, hfn, List.mem_map_of_mem _ hdt⟩

/-- Witness for C10: on the concrete import table the single symbol
"bar:FOO.DLL" splits into a function part and the library "FOO.DLL", which
is in the `ImportedLibraries` result. -/
theorem imported_symbols_form_witness :
    ∃ fn dll, ([98, 97, 114, 58, 70, 79, 79, 46, 68, 76, 76] : GoStr) =
      fn ++ [58] ++ dll ∧ dll ∈ [[70, 79, 79, 46, 68, 76, 76]] :=
  imported_symbols_form impSrc impFile
    [[98, 97, 114, 58, 70, 79, 79, 46, 68, 76, 76]]
    [[70, 79, 79, 46, 68, 76, 76]] (by decide) (by decide)
    [98, 97, 114, 58, 70, 79, 79, 46, 68, 76, 76] (by decide)

theorem data_error_readErr (src : List Nat) (s : Section) (e : PErr)
    (h : Section.Data src s = .error e) : e = .readErr := by
  unfold Section.Data at h
  split at h
  · cases h
  · split at h
    · cases h
    · split at h
      · cases h
      · injection h with h2
        exact h2.symm

theorem parseImportDescriptors_total :
    ∀ (n : Nat) (l : List Nat), l.length ≤ n → l.length % 20 = 0 →
      ∃ ds, parseImportDescriptors l = .ok ds := by
  intro n
  induction n with
  | zero =>
    intro l hl _
    have hnil : l = [] := List.length_eq_zero.mp (Nat.le_zero.mp hl)
    subst hnil
    exact ⟨[], rfl⟩
  | succ n ih =>
    intro l hl hm
    rcases l with _ | ⟨b0, l⟩
    · exact ⟨[], rfl⟩
    rcases l with _ | ⟨b1, l⟩
    · simp at hm
    rcases l with _ | ⟨b2, l⟩
    · simp at hm
    rcases l with _ | ⟨b3, l⟩
    · simp at hm
    rcases l with _ | ⟨b4, l⟩
    · simp at hm
    rcases l with _ | ⟨b5, l⟩
    · simp at hm
    rcases l with _ | ⟨b6, l⟩
    · simp at hm
    rcases l with _ | ⟨b7, l⟩
    · simp at hm
    rcases l with _ | ⟨b8, l⟩
    · simp at hm
    rcases l with _ | ⟨b9, l⟩
    · simp at hm
    rcases l with _ | ⟨b10, l⟩
    · simp at hm
    rcases l with _ | ⟨b11, l⟩
    · simp at hm
    rcases l with _ | ⟨b12, l⟩
    · simp at hm
    rcases l with _ | ⟨b13, l⟩
    · simp at hm
    rcases l with _ | ⟨b14, l⟩
    · simp at hm
    rcases l with _ | ⟨b15, l⟩
    · simp at hm
    rcases l with _ | ⟨b16, l⟩
    · simp at hm
    rcases l with _ | ⟨b17, l⟩
    · simp at hm
    rcases l with _ | ⟨b18, l⟩
    · simp at hm
    rcases l with _ | ⟨b19, rest⟩
    · simp at hm
    by_cases h0 : lu32of b0 b1 b2 b3 = 0
    · exact ⟨[], by simp only [parseImportDescriptors]; rw [if_pos h0]⟩
    · obtain ⟨ds, hds⟩ := ih rest (by simp at hl; omega) (by simp at hm; omega)
      refine ⟨⟨lu32of b0 b1 b2 b3, lu32of b12 b13 b14 b15,
        lu32of b16 b17 b18 b19⟩ :: ds, ?_⟩
      simp only [parseImportDescriptors]
      rw [if_neg h0, hds]

theorem walkThunks32_total (sd : List Nat) (dVA : Nat) (dll : GoStr) :
    ∀ (n : Nat) (block : List Nat), block.length ≤ n →
      block.length % 4 = 0 →
      ∃ r, walkThunks32 sd dVA dll block = .ok r := by
  intro n
  induction n with
  | zero =>
    intro block hb _
    have hnil : block = [] := List.length_eq_zero.mp (Nat.le_zero.mp hb)
    subst hnil
    exact ⟨[], rfl⟩
  | succ n ih =>
    intro block hb hm
    rcases block with _ | ⟨a, block⟩
    · exact ⟨[], rfl⟩
    rcases block with _ | ⟨b, block⟩
    · simp at hm
    rcases block with _ | ⟨c, block⟩
    · simp at hm
    rcases block with _ | ⟨d, rest⟩
    · simp at hm
    by_cases h0 : lu32of a b c d = 0
    · exact ⟨[], by simp only [walkThunks32]; rw [if_pos h0]⟩
    · obtain ⟨r, hr⟩ := ih rest (by simp at hb; omega) (by simp at hm; omega)
      by_cases hbit : (lu32of a b c d).testBit 31 = true
      · exact ⟨r, by simp only [walkThunks32]; rw [if_neg h0, if_pos hbit, hr]⟩
      · refine ⟨((getString sd
            ((lu32of a b c d + 4294967296 - dVA + 2) % 4294967296)).1 ++
            [58] ++ dll) :: r, ?_⟩
        simp only [walkThunks32]
        rw [if_neg h0, if_neg hbit, hr]

theorem walkThunks64_total (sd : List Nat) (dVA : Nat) (dll : GoStr) :
    ∀ (n : Nat) (block : List Nat), block.length ≤ n →
      block.length % 8 = 0 →
      ∃ r, walkThunks64 sd dVA dll block = .ok r := by
  intro n
  induction n with
  | zero =>
    intro block hb _
    have hnil : block = [] := List.length_eq_zero.mp (Nat.le_zero.mp hb)
    subst hnil
    exact ⟨[], rfl⟩
  | succ n ih =>
    intro block hb hm
    rcases block with _ | ⟨a, block⟩
    · exact ⟨[], rfl⟩
    rcases block with _ | ⟨b, block⟩
    · simp at hm
    rcases block with _ | ⟨c, block⟩
    · simp at hm
    rcases block with _ | ⟨d, block⟩
    · simp at hm
    rcases block with _ | ⟨e, block⟩
    · simp at hm
    rcases block with _ | ⟨f, block⟩
    · simp at hm
    rcases block with _ | ⟨g, block⟩
    · simp at hm
    rcases block with _ | ⟨i, rest⟩
    · simp at hm
    by_cases h0 : lu32of a b c d + 4294967296 * lu32of e f g i = 0
    · exact ⟨[], by simp only [walkThunks64]; rw [if_pos h0]⟩
    · obtain ⟨r, hr⟩ := ih rest (by simp at hb; omega) (by simp at hm; omega)
      by_cases hbit :
          (lu32of a b c d + 4294967296 * lu32of e f g i).testBit 63 = true
      · exact ⟨r, by simp only [walkThunks64]; rw [if_neg h0, if_pos hbit, hr]⟩
      · refine ⟨((getString sd
            (((lu32of a b c d + 4294967296 * lu32of e f g i) % 4294967296 +
              4294967296 - dVA + 2) % 4294967296)).1 ++ [58] ++ dll) :: r, ?_⟩
        simp only [walkThunks64]
        rw [if_neg h0, if_neg hbit, hr]

theorem goSymbols_total (sd : List Nat) (dVA : Nat) (pe64 : Bool) :
    ∀ descs : List ImageImportDescriptor,
      (∀ dt ∈ descs,
        (dt.originalFirstThunk + 4294967296 - dVA) % 4294967296 ≤ sd.length ∧
        (sd.length -
          (dt.originalFirstThunk + 4294967296 - dVA) % 4294967296) %
            (if pe64 then 8 else 4) = 0) →
      ∃ r, goSymbols sd dVA pe64 descs = .ok r := by
  intro descs
  induction descs with
  | nil => exact fun _ => ⟨[], rfl⟩
  | cons dt rest ih =>
    intro h
    obtain ⟨ht, hm⟩ := h dt (List.mem_cons_self dt rest)
    obtain ⟨r2, hr2⟩ := ih (fun d hd => h d (List.mem_cons_of_mem _ hd))
    have hw : ∃ w,
        walkThunks sd dVA (dllName sd dVA dt) pe64
          (sd.drop ((dt.originalFirstThunk + 4294967296 - dVA) % 4294967296)) =
          .ok w := by
      cases pe64
      · obtain ⟨w, hw⟩ := walkThunks32_total sd dVA (dllName sd dVA dt)
          (sd.drop ((dt.originalFirstThunk + 4294967296 - dVA) %
            4294967296)).length _ le_rfl
          (by rw [List.length_drop]; simpa using hm)
        exact ⟨w, by unfold walkThunks; rw [if_neg (by simp)]; exact hw⟩
      · obtain ⟨w, hw⟩ := walkThunks64_total sd dVA (dllName sd dVA dt)
          (sd.drop ((dt.originalFirstThunk + 4294967296 - dVA) %
            4294967296)).length _ le_rfl
          (by rw [List.length_drop]; simpa using hm)
        exact ⟨w, by unfold walkThunks; rw [if_pos rfl]; exact hw⟩
    obtain ⟨w, hw⟩ := hw
    refine ⟨w ++ r2, ?_⟩
    simp only [goSymbols]
    rw [if_neg (not_lt.mpr ht), hw, hr2]

/-- Counterexample for C4 as stated: `ImportedSymbols` and
`ImportedLibraries` are not total — on an import slice of 10 bytes whose
first descriptor record overruns the slice, the Go code panics (slice
bounds out of range), modelled by `PErr.panic`. -/
theorem imports_crash_counterexample :
    ImportedSymbols panicSrc panicFile = .error .panic ∧
    ImportedLibraries panicSrc panicFile = .error .panic := by decide

/-- C4 as amended: `ImportedSymbols` and `ImportedLibraries` never crash
provided every offset they form stays inside the section slice
(`importsInBounds`): descriptor decoding stops at a zero
`originalFirstThunk` terminator or on an exactly exhausted slice, and name
resolution beyond the slice's bounds yields an empty string via
`getString`'s bounds check instead of crashing (it is not surfaced as an
error). -/
theorem imports_no_crash_amended (src : List Nat) (f : File)
    (h : importsInBounds src f = true) :
    ImportedSymbols src f ≠ .error .panic ∧
    ImportedLibraries src f ≠ .error .panic := by
  unfold importsInBounds at h
  cases hfs : findImportSection f (importTableAddress f) with
  | none =>
    have hPrep : importPrep src f = .ok none := by
      unfold importPrep
      simp only [hfs]
    unfold ImportedSymbols ImportedLibraries
    simp only [hPrep]
    exact ⟨by simp, by simp⟩
  | some ds =>
    simp only [hfs] at h
    cases hd : Section.Data src ds with
    | error e =>
      have he : e = .readErr := data_error_readErr src ds e hd
      subst he
      have hPrep : importPrep src f = .error .readErr := by
        unfold importPrep
        simp only [hfs, hd]
      unfold ImportedSymbols ImportedLibraries
      simp only [hPrep]
      exact ⟨by simp, by simp⟩
    | ok data0 =>
      rw [hd] at h
      simp only [Bool.and_eq_true, decide_eq_true_eq] at h
      obtain ⟨hk, hmod, h3⟩ := h
      obtain ⟨descs, hds⟩ := parseImportDescriptors_total
        (data0.drop ((importTableAddress f).virtualAddress -
          ds.virtualAddress)).length _ le_rfl hmod
      simp only [hds] at h3
      have hPrep : importPrep src f = .ok (some
          (data0.drop ((importTableAddress f).virtualAddress -
            ds.virtualAddress),
           (importTableAddress f).virtualAddress, descs)) := by
        unfold importPrep
        simp only [hfs, hd, hds]
        rw [if_neg (not_lt.mpr hk)]
      have hall := List.all_eq_true.mp h3
      obtain ⟨r, hr⟩ := goSymbols_total
        (data0.drop ((importTableAddress f).virtualAddress -
          ds.virtualAddress))
        (importTableAddress f).virtualAddress
        (f.machine = machineAmd64) descs
        (by
          intro dt hdt
          have hx := hall dt hdt
          simp only [Bool.and_eq_true, decide_eq_true_eq] at hx
          obtain ⟨hx1, hx2⟩ := hx
          refine ⟨hx1, ?_⟩
          by_cases hm64 : f.machine = machineAmd64
          · simp only [hm64] at hx2 ⊢
            simpa using hx2
          · simp only [if_neg hm64] at hx2 ⊢
            simpa [hm64] using hx2)
      unfold ImportedSymbols ImportedLibraries
      simp only [hPrep]
      constructor
      · rw [hr]
        simp
      · simp

/-- Witness for C4 as amended: the concrete well-formed import table is in
bounds and neither walker crashes on it. -/
theorem imports_no_crash_amended_witness :
    importsInBounds impSrc impFile = true ∧
    (ImportedSymbols impSrc impFile ≠ .error .panic ∧
     ImportedLibraries impSrc impFile ≠ .error .panic) :=
  ⟨by decide, imports_no_crash_amended impSrc impFile (by decide)⟩

/-- C1: for every byte source and params, a returned `ImportedLibraries`
failure or a resource-parsing failure is fatal under `strict=true`, wrapped
with the subsystem context ("while parsing imported libraries" / "while
parsing resources") and no `PeInfo` is produced; under `strict=false` the
same failure yields a successful `PeInfo` with the corresponding field
empty/absent and a warning emitted on the diagnostic sink.  (parseResources
is not under src/ and is spec-modelled as an abstract fallible subsystem;
"fails" means a returned error, not a propagating Go panic.) -/
theorem probe_error_policy (parseRes : Section → Except String ResOut)
    (src : List Nat) (pf : File) (hnf : NewFile src = .ok pf) :
    (∀ e, ImportedLibraries src pf = .error e → e ≠ .panic →
      Probe parseRes src ⟨true⟩ =
        .err (.withMessage "while parsing imported libraries" (.inl e)) ∧
      ∃ info ws, Probe parseRes src ⟨false⟩ = .ok info ws ∧
        info.imports = [] ∧ warnImports ∈ ws) ∧
    (∀ imports sect msg, ImportedLibraries src pf = .ok imports →
      pf.findSectionByName rsrcName = some sect →
      parseRes sect = .error msg →
      Probe parseRes src ⟨true⟩ =
        .err (.withMessage "while parsing resources" (.inr msg)) ∧
      ∃ info ws, Probe parseRes src ⟨false⟩ = .ok info ws ∧
        info.versionProperties = [] ∧ info.assemblyInfo = none ∧
        info.dependentAssemblies = [] ∧ warnResources ∈ ws) := by
  have hP : ∀ b, Probe parseRes src ⟨b⟩ =
      ProbeWithFile parseRes src pf ⟨b⟩ := by
    intro b
    unfold Probe
    simp only [hnf]
  constructor
  · intro e he hne
    constructor
    · rw [hP]
      unfold ProbeWithFile
      simp only [he]
      cases e
      case panic => exact absurd rfl hne
      all_goals simp
    · rw [hP]
      unfold ProbeWithFile
      simp only [he]
      cases e
      case panic => exact absurd rfl hne
      all_goals (
        cases hfsec : pf.findSectionByName rsrcName with
        | none => exact ⟨_, _, rfl, rfl, by simp⟩
        | some sect =>
          cases hpr : parseRes sect with
          | ok r =>
            simp only [hpr]
            exact ⟨_, _, rfl, rfl, by simp⟩
          | error msg =>
            simp only [hpr]
            exact ⟨_, _, rfl, rfl, by simp⟩)
  · intro imports sect msg he hsec hpr
    constructor
    · rw [hP]
      unfold ProbeWithFile
      simp only [he, hsec, hpr]
      simp
    · rw [hP]
      unfold ProbeWithFile
      simp only [he, hsec, hpr]
      exact ⟨_, _, rfl, rfl, rfl, rfl, by simp⟩

/-- Witness for C1: on a concrete image whose import section's raw data
lies past the end of the source, strict probing fails with the context
naming imported libraries and lenient probing warns with empty imports; on a
concrete image with a `.rsrc` section and a failing resource subsystem,
strict probing fails with the resources context and lenient probing warns
with empty resource fields. -/
theorem probe_error_policy_witness :
    (Probe failRes impFailSrc ⟨true⟩ =
      .err (.withMessage "while parsing imported libraries"
        (.inl .readErr)) ∧
     ∃ info ws, Probe failRes impFailSrc ⟨false⟩ = .ok info ws ∧
       info.imports = [] ∧ warnImports ∈ ws) ∧
    (Probe failRes rsrcSrc ⟨true⟩ =
      .err (.withMessage "while parsing resources"
        (.inr "resource decode failure")) ∧
     ∃ info ws, Probe failRes rsrcSrc ⟨false⟩ = .ok info ws ∧
       info.versionProperties = [] ∧ info.assemblyInfo = none ∧
       info.dependentAssemblies = [] ∧ warnResources ∈ ws) :=
  ⟨(probe_error_policy failRes impFailSrc impFailFile (by decide)).1
      .readErr (by decide) (by decide),
   (probe_error_policy failRes rsrcSrc rsrcFile (by decide)).2
      [] ⟨[46, 114, 115, 114, 99], 0x1000, 0x1000, 0, 0, 0, 0, 0, 0, 0, []⟩
      "resource decode failure" (by decide) (by decide) (by decide)⟩

/-- Counterexample for C3 as stated: the 96-zero-byte source contains no
DOS signature (and no PE signature), yet `Probe` succeeds — the parser
falls back to treating the source as a bare COFF object — so probing a
source lacking the DOS+PE signature sequence does not always fail. -/
theorem probe_signature_counterexample :
    zeroSrc.take 2 ≠ [77, 90] ∧
    Probe failRes zeroSrc ⟨true⟩ = .ok ⟨"", [], [], none, []⟩ [] ∧
    Probe failRes zeroSrc ⟨false⟩ = .ok ⟨"", [], [], none, []⟩ [] := by
  decide

/-- C3 as amended: a byte source that begins with the DOS signature "MZ"
and whose PE-signature offset (read from 0x3C) holds readable bytes other
than "PE\x00\x00" fails with an invalid-signature error, for both strict
values, and no PeInfo is returned; a source lacking the DOS signature is
instead parsed as a bare COFF object and need not fail at all. -/
theorem probe_signature_amended (parseRes : Section → Except String ResOut)
    (src : List Nat) (params : ProbeParams)
    (h96 : ¬ src.length < 96)
    (hm : src.getD 0 0 = 77) (hz : src.getD 1 0 = 90)
    (hin : lu32at src 0x3c + 4 ≤ src.length)
    (hsig : (src.drop (lu32at src 0x3c)).take 4 ≠ [80, 69, 0, 0]) :
    Probe parseRes src params =
      .err (.newFile (.invalidSignature
        ((src.drop (lu32at src 0x3c)).take 4))) := by
  have hm2 : src[0]?.getD 0 = 77 := by simpa [List.getD] using hm
  have hz2 : src[1]?.getD 0 = 90 := by simpa [List.getD] using hz
  unfold Probe NewFile peBase readBytes
  simp [h96, hm2, hz2, hin, hsig]

/-- Witness for C3 as amended: a concrete source starting with "MZ" whose
PE-signature pointer (zero) points back at "MZ\x00\x00" fails with the
invalid-signature error under both strict settings. -/
theorem probe_signature_amended_witness :
    Probe failRes mzBadSrc ⟨true⟩ =
      .err (.newFile (.invalidSignature
        ((mzBadSrc.drop (lu32at mzBadSrc 0x3c)).take 4))) ∧
    Probe failRes mzBadSrc ⟨false⟩ =
      .err (.newFile (.invalidSignature
        ((mzBadSrc.drop (lu32at mzBadSrc 0x3c)).take 4))) :=
  ⟨probe_signature_amended failRes mzBadSrc ⟨true⟩ (by decide) (by decide)
      (by decide) (by decide) (by decide),
   probe_signature_amended failRes mzBadSrc ⟨false⟩ (by decide) (by decide)
      (by decide) (by decide) (by decide)⟩

theorem readOptionalHeader_cases (src : List Nat) (pos sz : Nat)
    (r : Option OptHeader) (h : readOptionalHeader src pos sz = .ok r) :
    (sz = sizeofOptionalHeader32 →
      ∃ oh, r = some (.o32 oh) ∧ oh.magic = 0x10b) ∧
    (sz = sizeofOptionalHeader64 →
      ∃ oh, r = some (.o64 oh) ∧ oh.magic = 0x20b) ∧
    (sz ≠ sizeofOptionalHeader32 → sz ≠ sizeofOptionalHeader64 →
      r = none) := by
  unfold readOptionalHeader at h
  split at h
  · rename_i h32
    split at h
    · cases h
    · rename_i oh hdec
      split at h
      · cases h
      · rename_i hmag
        push_neg at hmag
        injection h with h2
        subst h2
        refine ⟨fun _ => ⟨oh, rfl, hmag⟩, fun hs => ?_, fun hc _ => absurd h32 hc⟩
        rw [h32] at hs
        exact absurd hs (by decide)
  · split at h
    · rename_i h64
      split at h
      · cases h
      · rename_i oh hdec
        split at h
        · cases h
        · rename_i hmag
          push_neg at hmag
          injection h with h2
          subst h2
          refine ⟨fun hs => ?_, fun _ => ⟨oh, rfl, hmag⟩,
            fun _ hc => absurd h64 hc⟩
          rw [h64] at hs
          exact absurd hs (by decide)
    · rename_i hn32 hn64
      injection h with h2
      subst h2
      exact ⟨fun hs => absurd hs hn32, fun hs => absurd hs hn64,
        fun _ _ => rfl⟩

theorem newFile_ok_shape (src : List Nat) (pf : File)
    (h : NewFile src = .ok pf) :
    (pf.machine = machineUnknown ∨ pf.machine = machineI386 ∨
      pf.machine = machineAmd64) ∧
    ∃ base : Nat,
      readOptionalHeader src (base + 20) pf.fileHeader.sizeOfOptionalHeader =
        .ok pf.optionalHeader := by
  unfold NewFile at h
  repeat' split at h
  all_goals try exact Except.noConfusion h
  injection h with h2
  subst h2
  constructor
  · simp only [File.machine]
    tauto
  · exact ⟨_, by assumption⟩

theorem probeWithFile_ok_arch (parseRes : Section → Except String ResOut)
    (src : List Nat) (pf : File) (params : ProbeParams)
    (info : PeInfo) (ws : List String)
    (h : ProbeWithFile parseRes src pf params = .ok info ws) :
    info.arch = (if pf.machine = machineI386 then "386"
      else if pf.machine = machineAmd64 then "amd64" else "") := by
  unfold ProbeWithFile at h
  repeat' split at h
  all_goals first
    | exact ProbeOutcome.noConfusion h
    | (cases h; simp_all)

/-- Counterexample for C2 as stated: the 96-zero-byte source parses as a
bare COFF object with machine IMAGE_FILE_MACHINE_UNKNOWN (which `NewFile`
admits), `Probe` succeeds, and the resulting `Arch` is the empty string —
neither "386" nor "amd64". -/
theorem probe_arch_counterexample :
    Probe failRes zeroSrc ⟨false⟩ = .ok ⟨"", [], [], none, []⟩ [] ∧
    ("" : String) ≠ "386" ∧ ("" : String) ≠ "amd64" := by
  decide

/-- C2 as amended: whenever `Probe` succeeds, the parsed file's machine is
one of the three values `NewFile` admits, and `Arch` is "386" exactly for
I386, "amd64" exactly for AMD64, and the empty string for the UNKNOWN
machine type. -/
theorem probe_arch_amended (parseRes : Section → Except String ResOut)
    (src : List Nat) (params : ProbeParams) (info : PeInfo)
    (ws : List String)
    (h : Probe parseRes src params = .ok info ws) :
    ∃ pf, NewFile src = .ok pf ∧
      ((pf.machine = machineI386 ∧ info.arch = "386") ∨
       (pf.machine = machineAmd64 ∧ info.arch = "amd64") ∨
       (pf.machine = machineUnknown ∧ info.arch = "")) := by
  unfold Probe at h
  split at h
  · cases h
  · rename_i pf hnf
    refine ⟨pf, hnf, ?_⟩
    have harch := probeWithFile_ok_arch parseRes src pf params info ws h
    rcases (newFile_ok_shape src pf hnf).1 with h0 | h1 | h2
    · refine Or.inr (Or.inr ⟨h0, ?_⟩)
      rw [harch, h0]
      norm_num [machineUnknown, machineI386, machineAmd64]
    · refine Or.inl ⟨h1, ?_⟩
      rw [harch, h1]
      simp
    · refine Or.inr (Or.inl ⟨h2, ?_⟩)
      rw [harch, h2]
      norm_num [machineUnknown, machineI386, machineAmd64]

/-- Witness for C2 as amended: the concrete I386 image probes to
arch "386". -/
theorem probe_arch_amended_witness :
    ∃ pf, NewFile impFailSrc = .ok pf ∧
      ((pf.machine = machineI386 ∧
        (⟨"386", [], [], none, []⟩ : PeInfo).arch = "386") ∨
       (pf.machine = machineAmd64 ∧
        (⟨"386", [], [], none, []⟩ : PeInfo).arch = "amd64") ∨
       (pf.machine = machineUnknown ∧
        (⟨"386", [], [], none, []⟩ : PeInfo).arch = "")) :=
  probe_arch_amended failRes impFailSrc ⟨false⟩ ⟨"386", [], [], none, []⟩
    [warnImports] (by decide)

/-- C7: on a successful structural parse, a `SizeOfOptionalHeader` equal to
the 32-bit layout size yields a 32-bit optional header whose magic is
0x10B (parsing fails otherwise), the 64-bit layout size yields a 64-bit
header with magic 0x20B, and any other size yields no optional header
while parsing still succeeds. -/
theorem optional_header_dispatch (src : List Nat) (pf : File)
    (h : NewFile src = .ok pf) :
    (pf.fileHeader.sizeOfOptionalHeader = sizeofOptionalHeader32 →
      ∃ oh, pf.optionalHeader = some (.o32 oh) ∧ oh.magic = 0x10b) ∧
    (pf.fileHeader.sizeOfOptionalHeader = sizeofOptionalHeader64 →
      ∃ oh, pf.optionalHeader = some (.o64 oh) ∧ oh.magic = 0x20b) ∧
    (pf.fileHeader.sizeOfOptionalHeader ≠ sizeofOptionalHeader32 →
      pf.fileHeader.sizeOfOptionalHeader ≠ sizeofOptionalHeader64 →
      pf.optionalHeader = none) := by
  obtain ⟨-, base, hoh⟩ := newFile_ok_shape src pf h
  exact readOptionalHeader_cases src (base + 20)
    pf.fileHeader.sizeOfOptionalHeader pf.optionalHeader hoh

/-- Witness for C7: the concrete PE32 image (optional-header size 224)
parses with a 32-bit optional header of magic 0x10B, and the concrete
object file with optional-header size 0 parses with no optional header. -/
theorem optional_header_dispatch_witness :
    (∃ oh, impFailFile.optionalHeader = some (.o32 oh) ∧
      oh.magic = 0x10b) ∧
    rsrcFile.optionalHeader = none :=
  ⟨(optional_header_dispatch impFailSrc impFailFile (by decide)).1 rfl,
   (optional_header_dispatch rsrcSrc rsrcFile (by decide)).2.2
     (by decide) (by decide)⟩

end Pelican
